import Mathlib

/-!
Verification of the chat-quant frontend chat/session/preview logic.

Shallow embedding of:
- the `ChatLog` WebSocket handlers (message dedup/append, status handling,
  message display filtering, user-message cleaning);
- the `ChatPage` submission logic (`runAct`), the auto preview control
  effect, the initial-prompt guard, and the preview start/stop pair;
- the `ChatInput` submit handler;
- the `useUserRequests` polling intervals;
- an orchestrator state machine modelled from the specification for the
  parts of the system whose backend source is external.
-/

namespace ChatQuant

/-! ### JavaScript string primitives -/

/-- Whitespace test used by the embedding of the JavaScript string functions. -/
def isWs (c : Char) : Bool :=
  c == ' ' || c == '\t' || c == '\n' || c == '\r'

/-- Model of `String.prototype.trim` on character lists. -/
def trimL (l : List Char) : List Char :=
  ((l.dropWhile isWs).reverse.dropWhile isWs).reverse

/-- Model of `String.prototype.trim`. -/
def jsTrim (s : String) : String :=
  ⟨trimL s.data⟩

/-- Does the second list start with the first list? -/
def startsWithL : List Char → List Char → Bool
  | [], _ => true
  | _ :: _, [] => false
  | a :: pa, b :: s => if a = b then startsWithL pa s else false

/-- Does `s` contain `pat` as a contiguous run (model of `String.prototype.includes`)? -/
def containsL (pat : List Char) : List Char → Bool
  | [] => startsWithL pat []
  | a :: t => startsWithL pat (a :: t) || containsL pat t

/-- Model of `String.prototype.includes`. -/
def strIncludes (s pat : String) : Bool :=
  containsL pat.data s.data

/-- Does `s` end with `pat` (model of an end-anchored literal regex test)? -/
def endsWithL (s pat : List Char) : Bool :=
  startsWithL pat.reverse s.reverse

/-! ### Message data model (ChatLog.tsx `ChatMessage` and its `metadata_json`) -/

/-- Fields of `metadata_json` consulted by the UI; a missing JSON field is
modelled by the falsy default. -/
structure MessageMeta where
  has_images : Bool := false
  attachments : List String := []
  hidden_from_ui : Bool := false
deriving DecidableEq, Repr

/-- The `ChatMessage` record received over the WebSocket and stored in the
`messages` state of `ChatLog`. -/
structure ChatMessage where
  id : String
  role : String := ""
  message_type : Option String := none
  content : String := ""
  metadata_json : Option MessageMeta := none
deriving DecidableEq, Repr

/-- Truthiness of `message.metadata_json?.has_images ||
message.metadata_json?.attachments?.length > 0`. -/
def metaHasImages (m : ChatMessage) : Bool :=
  match m.metadata_json with
  | some md => md.has_images || decide (0 < md.attachments.length)
  | none => false

/-- Truthiness of `message.metadata_json && message.metadata_json.hidden_from_ui`. -/
def msgHidden (m : ChatMessage) : Bool :=
  match m.metadata_json with
  | some md => md.hidden_from_ui
  | none => false

/-- Embedding of `shouldDisplayMessage` from `ChatLog` (message filtering). -/
def shouldDisplayMessage (m : ChatMessage) : Bool :=
  if metaHasImages m then true
  else if m.content = "" ∨ jsTrim m.content = "" then false
  else if m.message_type = some "tool_result" then false
  else if m.role = "system" ∧ m.message_type = some "system" ∧
      (strIncludes m.content "initialized" = true ∨ strIncludes m.content "Agent" = true) then false
  else if msgHidden m = true then false
  else true

/-! ### Polling intervals (useUserRequests.ts) -/

/-- Embedding of the adaptive poll interval choice in the `useUserRequests`
polling effect: `hasActiveRequests ? 500 : 5000` milliseconds. -/
def pollInterval (hasActiveRequests : Bool) : Nat :=
  if hasActiveRequests then 500 else 5000

/-! ### Chat submission (ChatInput.tsx `handleSubmit` and ChatPage `runAct`) -/

/-- An uploaded attachment as passed from `ChatInput` to `runAct`. -/
structure UploadedFile where
  filename : String := ""
  path : String := ""
deriving DecidableEq, Repr

/-- Embedding of `ChatInput.handleSubmit`: returns the `(message, files)`
pair passed to `onSendMessage`, or `none` when nothing is sent. -/
def handleSubmit (message : String) (uploadedImages : List UploadedFile)
    (disabled : Bool) : Option (String × List UploadedFile) :=
  if (jsTrim message ≠ "" ∨ uploadedImages ≠ []) ∧ disabled = false then
    some (if jsTrim message ≠ "" then jsTrim message
          else if uploadedImages ≠ [] then "Please analyze the uploaded file(s)."
          else "", uploadedImages)
  else none

/-- The character with code 39, used to spell string literals that quote it. -/
def apos : Char := Char.ofNat 39

/-- The literal appended by `runAct` in chat mode and stripped again by
`cleanUserMessage`. -/
def chatSuffix : String :=
  "\n\nDo not modify code, only answer to the user" ++ String.mk [apos] ++ "s request."

/-- The default instruction substituted by `runAct` when only images are sent. -/
def defaultImageInstruction : String := "Please analyze the uploaded image(s)."

/-- The two chat modes of the page. -/
inductive ChatMode
  | act
  | chat
deriving DecidableEq, Repr

/-- Embedding of the message-shaping part of `ChatPage.runAct`: validation,
default-instruction substitution, and the chat-mode instruction appended to
the message; returns the `(instruction, images)` pair of the request body,
or `none` when the submission is rejected. -/
def runActSubmit (messageOverride : Option String) (prompt : String)
    (images : List UploadedFile) (mode : ChatMode) :
    Option (String × List UploadedFile) :=
  let finalMessage := match messageOverride with
    | some s => if s = "" then prompt else s
    | none => prompt
  if jsTrim finalMessage = "" ∧ images = [] then none
  else
    let fm := if jsTrim finalMessage = "" ∧ images ≠ [] then defaultImageInstruction
      else finalMessage
    some ((if mode = ChatMode.chat then fm ++ chatSuffix else fm), images)

/-! ### User-message cleaning (ChatLog.tsx `cleanUserMessage`)

The first regex of `cleanUserMessage` is end-anchored:
`\.\s*think\s+hard\.\s*$`.  Because each literal in it starts with a
non-whitespace character, its greedy whitespace runs are deterministic, so a
suffix of the input matches the whole pattern exactly when, reading the
suffix backwards, one sees optional whitespace, the reversal of the text
from "hard.", mandatory whitespace, the reversal of "think", optional
whitespace and a final dot. -/

/-- Does the reversal of a character list match the reversed regex
`\.\s*think\s+hard\.\s*` in full? -/
def fullThinkRev (r : List Char) : Bool :=
  let r1 := r.dropWhile isWs
  if startsWithL [ '.', 'd', 'r', 'a', 'h'] r1 then
    match r1.drop 5 with
    | [] => false
    | c :: cs =>
      if isWs c then
        let r3 := (c :: cs).dropWhile isWs
        if startsWithL [ 'k', 'n', 'i', 'h', 't'] r3 then
          decide ((r3.drop 5).dropWhile isWs = [ '.'])
        else false
      else false
  else false

/-- Does the whole character list match `\.\s*think\s+hard\.\s*`? -/
def fullThink (l : List Char) : Bool :=
  fullThinkRev l.reverse

/-- Index of the leftmost position whose suffix matches the end-anchored
think-hard regex in full, if any. -/
def firstThinkIdx : List Char → Option Nat
  | [] => if fullThink [] then some 0 else none
  | a :: t => if fullThink (a :: t) then some 0 else (firstThinkIdx t).map Nat.succ

/-- Embedding of `content.replace(/\.\s*think\s+hard\.\s*$/, '')`. -/
def replaceThinkHard (s : String) : String :=
  match firstThinkIdx s.data with
  | some i => ⟨s.data.take i⟩
  | none => s

/-- Embedding of the replacement of the end-anchored chat-mode literal regex
by the empty string: remove the final occurrence of `chatSuffix` if the
string ends with it. -/
def removeChatSuffix (s : String) : String :=
  if endsWithL s.data chatSuffix.data then
    ⟨s.data.take (s.data.length - chatSuffix.data.length)⟩
  else s

/-- Embedding of `ChatLog.cleanUserMessage`. -/
def cleanUserMessage (s : String) : String :=
  jsTrim (removeChatSuffix (replaceThinkHard s))

/-! ### Transcript construction (ChatLog.tsx `onMessage` handler) -/

/-- Embedding of the `setMessages` updater of the `onMessage` handler:
append the incoming message unless a message with the same id is already
present. -/
def onMessageAppend (prev : List ChatMessage) (m : ChatMessage) : List ChatMessage :=
  if prev.any (fun msg => msg.id == m.id) then prev else prev ++ [m]

/-- The transcript a viewer connected for the whole session builds from the
delivered message sequence (initial state `[]`, one `onMessage` per
delivery). -/
def transcript (delivered : List ChatMessage) : List ChatMessage :=
  delivered.foldl onMessageAppend []

/-! ### Auto preview control (ChatPage useEffect on `hasActiveRequests`) -/

/-- JavaScript truthiness of an optional string value. -/
def jsTruthy : Option String → Bool
  | some s => decide (s ≠ "")
  | none => false

/-- Outcome of one run of the auto-preview-control effect. -/
structure AutoPreviewEffect where
  stopCalled : Bool
  startCalled : Bool
  newPreviousActive : Bool
deriving DecidableEq, Repr

/-- Embedding of the `useEffect` that stops the preview while requests are
active and starts it on the active-to-idle transition. -/
def autoPreviewStep (previousActive : Bool) (hasActiveRequests : Bool)
    (previewUrl : Option String) : AutoPreviewEffect :=
  let stopCalled :=
    if hasActiveRequests = true ∧ jsTruthy previewUrl = true then true else false
  let startCalled :=
    if previousActive = true ∧ hasActiveRequests = false ∧ jsTruthy previewUrl = false
    then true else false
  ⟨stopCalled, startCalled, hasActiveRequests⟩

/-! ### Status handling (ChatLog.tsx `onStatus` handler) -/

/-- The `data` payload of a WebSocket status event; absent JSON fields are
`none`. -/
structure StatusData where
  status : Option String := none
  message : Option String := none
  request_id : Option String := none
  error : Option String := none
deriving DecidableEq, Repr

/-- The observable effects of one run of the `onStatus` handler. -/
structure StatusEffects where
  projectStatusUpdate : Option (Option String × Option String) := none
  clearedActiveSession : Bool := false
  sessionRunningSignal : Option Bool := none
  waitingForResponse : Option Bool := none
  completeRequestCall : Option (String × Bool × Option String) := none
  startRequestCall : Option String := none
deriving DecidableEq, Repr

/-- The `request_id` extracted from the status data when truthy. -/
def truthyRequestId : Option StatusData → Option String
  | some d => match d.request_id with
    | some rid => if rid ≠ "" then some rid else none
    | none => none
  | none => none

/-- Embedding of the `onStatus` handler of `ChatLog`: the callbacks invoked
and states set for a given `status` string and `data` payload. -/
def onStatus (status : String) (data : Option StatusData) : StatusEffects :=
  let e0 : StatusEffects := {}
  let e1 := match data with
    | some d =>
      if status = "project_status" then
        { e0 with projectStatusUpdate := some (d.status, d.message) }
      else e0
    | none => e0
  let e2 :=
    if status = "act_complete" ∨ status = "chat_complete" then
      { e1 with
        clearedActiveSession := true
        sessionRunningSignal := some false
        waitingForResponse := some false
        completeRequestCall :=
          match truthyRequestId data with
          | some rid =>
            some (rid,
              (match data with
               | some d => match d.status with
                 | some s => decide (s = "completed")
                 | none => false
               | none => false),
              (match data with | some d => d.error | none => none))
          | none => none }
    else e1
  if status = "act_start" ∨ status = "chat_start" then
    { e2 with
      waitingForResponse := some true
      startRequestCall := truthyRequestId data }
  else e2

/-! ### Initial-prompt guard (ChatPage `triggerInitialPromptIfNeeded`) -/

/-- The page-lifetime state relevant to the initial-prompt guard: the
synchronous ref `initialPromptSentRef`, the React state `initialPromptSent`,
and the number of initial-prompt requests issued so far. -/
structure InitialPromptState where
  refSent : Bool := false
  sentState : Bool := false
  postCount : Nat := 0
deriving DecidableEq, Repr

/-- Events of the initial-prompt lifecycle: a call of
`triggerInitialPromptIfNeeded` with the `initial_prompt` url parameter, and
a failed send, which resets the `initialPromptSent` React state. -/
inductive PageEvent
  | trigger (urlPrompt : Option String)
  | sendFailed
deriving DecidableEq, Repr

/-- Embedding of the guard logic: a trigger returns early when the url
carries no prompt or when the ref is already set; otherwise it sets the ref
and the state synchronously and issues the initial-prompt request (the
scheduled `sendInitialPrompt`, which is called from nowhere else).  A failed
send resets `initialPromptSent` but never the ref. -/
def pageStep (st : InitialPromptState) : PageEvent → InitialPromptState
  | .trigger urlPrompt =>
    match urlPrompt with
    | none => st
    | some p =>
      if p = "" then st
      else if st.refSent then st
      else { refSent := true, sentState := true, postCount := st.postCount + 1 }
  | .sendFailed => { st with sentState := false }

/-- The state after a page lifetime consisting of the given events. -/
def runPage (evs : List PageEvent) : InitialPromptState :=
  evs.foldl pageStep {}

/-! ### Preview start/stop with the interrupt flag (ChatPage `start`, `stop`,
`chatInputStop`) -/

/-- The `ChatPage` state touched by `start` and `stop`. -/
structure PreviewClientState where
  recordInterruptState : Bool := false
  previewUrl : Option String := none
  currentRoute : String := ""
deriving DecidableEq, Repr

/-- Embedding of `stop()`: requests the server to stop the preview, clears
the preview url, the interrupt flag and the route. -/
def stopPreviewClient (_st : PreviewClientState) : PreviewClientState :=
  { recordInterruptState := false, previewUrl := none, currentRoute := "" }

/-- Result of one call of `start(url)`. -/
structure StartResult where
  state : PreviewClientState
  startedPreview : Bool
  stopRequested : Bool
deriving DecidableEq, Repr

/-- Embedding of `start(url)`: when the interrupt flag is recorded it calls
`stop()` and returns; otherwise it sets the preview url (as resolved from
the argument or the start endpoint) and resets the route. -/
def startPreviewClient (st : PreviewClientState) (url : String) : StartResult :=
  if st.recordInterruptState then
    { state := stopPreviewClient st, startedPreview := false, stopRequested := true }
  else
    { state := { st with previewUrl := some url, currentRoute := "" },
      startedPreview := true, stopRequested := false }

/-- Embedding of the successful branch of `chatInputStop`: the interrupt is
recorded. -/
def chatInputStopOk (st : PreviewClientState) : PreviewClientState :=
  { st with recordInterruptState := true }

/-! ### Orchestrator state machine

Modelled from the spec: the Session Orchestrator and the Preview Process
Supervisor live in the backend, whose source is not part of this frontend
tree; their state machine is modelled from sections 4.2, 4.5 and 5 of the
specification (check-and-set exclusive execution slot per project, terminal
session statuses, one supervised preview process per project, and the
coupling rule that starting a session stops the project's running preview). -/

/-- Session statuses of the data model. -/
inductive SessionStatus
  | pending
  | running
  | completed
  | failed
  | cancelled
deriving DecidableEq, Repr

/-- One Session record. -/
structure SessionRec where
  sid : Nat
  project : Nat
  status : SessionStatus
deriving DecidableEq, Repr

/-- Preview process statuses of the data model. -/
inductive PreviewStatus
  | stopped
  | starting
  | running
  | error
deriving DecidableEq, Repr

/-- One PreviewProcess record. -/
structure PreviewRec where
  pid : Nat
  project : Nat
  status : PreviewStatus
deriving DecidableEq, Repr

/-- The orchestrator-visible state: all Session and PreviewProcess records. -/
structure OrchestratorState where
  sessions : List SessionRec
  previews : List PreviewRec
deriving DecidableEq, Repr

/-- Is a Session currently `running` for the project (the per-project
exclusive flag the orchestrator re-validates atomically)? -/
def sessionRunningFor (st : OrchestratorState) (p : Nat) : Bool :=
  st.sessions.any (fun s => s.project == p && s.status == SessionStatus.running)

/-- Is a PreviewProcess currently `running` for the project? -/
def previewRunningFor (st : OrchestratorState) (p : Nat) : Bool :=
  st.previews.any (fun pr => pr.project == p && pr.status == PreviewStatus.running)

/-- Number of `running` Sessions of the project. -/
def runningSessionCount (st : OrchestratorState) (p : Nat) : Nat :=
  st.sessions.countP (fun s => s.project == p && s.status == SessionStatus.running)

/-- Number of `running` PreviewProcesses of the project. -/
def runningPreviewCount (st : OrchestratorState) (p : Nat) : Nat :=
  st.previews.countP (fun pr => pr.project == p && pr.status == PreviewStatus.running)

/-- Orchestration events, modelled from the spec: `execute` (accepting an
instruction), session termination, preview start and preview stop. -/
inductive OrchEvent
  | execute (p sid : Nat)
  | endSession (sid : Nat) (final : SessionStatus)
  | startPreview (p pid : Nat)
  | stopPreview (pid : Nat)
deriving DecidableEq, Repr

/-- Modelled from the spec: one orchestration step.  `execute` is rejected
with no state mutated when a `running` Session already exists for the
project (check-and-set); when accepted it stops the project's running
preview (coupling rule) and creates the running Session.  `endSession` sets
a terminal status (the orchestrator only ever moves a session out of
`running`).  `startPreview` is a no-op when the project already has a
running preview (one supervised process per project); `stopPreview` marks
the process stopped. -/
def orchStep (st : OrchestratorState) : OrchEvent → OrchestratorState
  | .execute p sid =>
    if sessionRunningFor st p then st
    else
      { sessions := ⟨sid, p, SessionStatus.running⟩ :: st.sessions,
        previews := st.previews.map (fun pr =>
          if pr.project == p then { pr with status := PreviewStatus.stopped } else pr) }
  | .endSession sid final =>
    if final = SessionStatus.running ∨ final = SessionStatus.pending then st
    else
      { st with sessions := st.sessions.map (fun s =>
          if s.sid == sid then { s with status := final } else s) }
  | .startPreview p pid =>
    if previewRunningFor st p then st
    else { st with previews := ⟨pid, p, PreviewStatus.running⟩ :: st.previews }
  | .stopPreview pid =>
    { st with previews := st.previews.map (fun pr =>
        if pr.pid == pid then { pr with status := PreviewStatus.stopped } else pr) }

/-- The orchestrator state after a sequence of events from the empty initial
state. -/
def orchRun (evs : List OrchEvent) : OrchestratorState :=
  evs.foldl orchStep ⟨[], []⟩

/-- The per-project exclusivity invariant of the spec. -/
def OrchInv (st : OrchestratorState) : Prop :=
  ∀ p, runningSessionCount st p ≤ 1 ∧ runningPreviewCount st p ≤ 1

/-! ## Theorems -/

/-- C7: the claim that every polling state queries at sub-second intervals is
false: the idle polling state waits 5000 ms between queries. -/
theorem C7_counterexample : ¬ (pollInterval false < 1000) := by decide

/-- C7 (amended): the polling interval is 500 ms (sub-second) while the
project has active requests, and 5000 ms when it is idle. -/
theorem C7_poll_intervals :
    pollInterval true = 500 ∧ pollInterval true < 1000 ∧ pollInterval false = 5000 := by
  decide

/-- C4: the claim that a message marked `hidden_from_ui` never reaches
viewers regardless of attached images is false: a hidden message whose
metadata also reports images is displayed. -/
theorem C4_counterexample :
    msgHidden ⟨"m1", "assistant", some "chat", "", some ⟨true, [], true⟩⟩ = true ∧
    shouldDisplayMessage ⟨"m1", "assistant", some "chat", "", some ⟨true, [], true⟩⟩ = true := by
  decide

/-- C4 (amended): a message marked `hidden_from_ui` is filtered out by
`shouldDisplayMessage` regardless of role, kind or content, provided its
metadata does not report images or attachments (the image early-accept runs
first). -/
theorem C4_hidden_filtered (m : ChatMessage) (h1 : msgHidden m = true)
    (h2 : metaHasImages m = false) : shouldDisplayMessage m = false := by
  unfold shouldDisplayMessage
  rw [h2]
  simp [h1]

/-- C4 witness: a concrete hidden message without images is filtered out. -/
theorem C4_witness :
    shouldDisplayMessage ⟨"m2", "assistant", some "chat", "internal", some ⟨false, [], true⟩⟩
      = false :=
  C4_hidden_filtered _ (by decide) (by decide)

/-- C5: a whitespace-only instruction with attachments is sent with the
non-empty default instruction and the attachments, both in the
`ChatInput.handleSubmit` path and in the `runAct` path; a whitespace-only
instruction with no attachments is rejected and nothing is sent. -/
theorem C5_default_instruction (message : String) (images : List UploadedFile)
    (hmsg : jsTrim message = "") (himgs : images ≠ []) :
    handleSubmit message images false = some ("Please analyze the uploaded file(s).", images) ∧
    ("Please analyze the uploaded file(s)." : String) ≠ "" ∧
    runActSubmit none message images ChatMode.act = some (defaultImageInstruction, images) ∧
    defaultImageInstruction ≠ "" ∧
    (∀ mode, handleSubmit message [] false = none ∧ runActSubmit none message [] mode = none) := by
  refine ⟨?_, by decide, ?_, by decide, ?_⟩
  · simp [handleSubmit, hmsg, himgs]
  · simp [runActSubmit, hmsg, himgs]
  · intro mode
    exact ⟨by simp [handleSubmit, hmsg], by simp [runActSubmit, hmsg]⟩

/-- C5 witness: a concrete whitespace instruction with one attachment. -/
theorem C5_witness :
    handleSubmit "   " [⟨"a.png", "p"⟩] false
      = some ("Please analyze the uploaded file(s).", [⟨"a.png", "p"⟩]) ∧
    runActSubmit none "   " [⟨"a.png", "p"⟩] ChatMode.act
      = some (defaultImageInstruction, [⟨"a.png", "p"⟩]) ∧
    runActSubmit none "   " [] ChatMode.act = none := by
  have h := C5_default_instruction "   " [⟨"a.png", "p"⟩] (by decide) (by decide)
  exact ⟨h.1, h.2.2.1, (h.2.2.2.2 ChatMode.act).2⟩

/-- C3: the auto preview control effect stops the preview exactly when the
project has active requests while a preview url is set, starts one exactly
on the transition from active to idle with no preview present, and never
starts one without the transition. -/
theorem C3_auto_preview_control (prevActive hasActive : Bool) (url : Option String) :
    ((autoPreviewStep prevActive hasActive url).stopCalled = true ↔
      hasActive = true ∧ jsTruthy url = true) ∧
    ((autoPreviewStep prevActive hasActive url).startCalled = true ↔
      prevActive = true ∧ hasActive = false ∧ jsTruthy url = false) ∧
    (prevActive = false → (autoPreviewStep prevActive hasActive url).startCalled = false) ∧
    (autoPreviewStep prevActive hasActive url).newPreviousActive = hasActive := by
  cases prevActive <;> cases hasActive <;> by_cases hu : jsTruthy url = true <;>
    simp [autoPreviewStep, hu]

/-- C3 witness: with no recorded transition the idle state does not start a
preview. -/
theorem C3_witness : (autoPreviewStep false false none).startCalled = false :=
  (C3_auto_preview_control false false none).2.2.1 rfl

/-- C10: once an interrupt is recorded, the next `start()` does not start a
preview: it requests a stop, clears the flag and leaves the url unset, and
only the subsequent call starts a preview again. -/
theorem C10_interrupt_blocks_next_start (st : PreviewClientState) (url url2 : String)
    (h : st.recordInterruptState = true) :
    (startPreviewClient st url).startedPreview = false ∧
    (startPreviewClient st url).stopRequested = true ∧
    (startPreviewClient st url).state.previewUrl = none ∧
    (startPreviewClient st url).state.recordInterruptState = false ∧
    (startPreviewClient (startPreviewClient st url).state url2).startedPreview = true := by
  simp [startPreviewClient, stopPreviewClient, h]

/-- C10 witness: concrete interrupted state. -/
theorem C10_witness :
    (startPreviewClient ⟨true, none, ""⟩ "u1").startedPreview = false ∧
    (startPreviewClient ⟨true, none, ""⟩ "u1").stopRequested = true ∧
    (startPreviewClient ⟨true, none, ""⟩ "u1").state.previewUrl = none ∧
    (startPreviewClient ⟨true, none, ""⟩ "u1").state.recordInterruptState = false ∧
    (startPreviewClient (startPreviewClient ⟨true, none, ""⟩ "u1").state "u2").startedPreview
      = true :=
  C10_interrupt_blocks_next_start ⟨true, none, ""⟩ "u1" "u2" rfl

/-- C6: on an `act_complete` or `chat_complete` status event the viewer
clears the active session, signals the session as not running, clears the
waiting state, and, when the event carries a request id, calls
`completeRequest` with that id, a success flag that is true exactly when the
event status equals "completed", and the event's error text. -/
theorem C6_session_complete_effects (status : String) (data : Option StatusData)
    (h : status = "act_complete" ∨ status = "chat_complete") :
    (onStatus status data).clearedActiveSession = true ∧
    (onStatus status data).sessionRunningSignal = some false ∧
    (onStatus status data).waitingForResponse = some false ∧
    (∀ d rid, data = some d → d.request_id = some rid → rid ≠ "" →
      ∃ b, (onStatus status data).completeRequestCall = some (rid, b, d.error) ∧
        (b = true ↔ d.status = some "completed")) := by
  obtain h | h := h <;> subst h <;>
    refine ⟨by simp [onStatus], by simp [onStatus], by simp [onStatus], ?_⟩ <;>
    · intro d rid hd hrid hne
      subst hd
      refine ⟨(match d.status with
        | some s => decide (s = "completed")
        | none => false), ?_, ?_⟩
      · simp [onStatus, truthyRequestId, hrid, hne]
      · cases hs : d.status <;> simp [hs]

/-- C6 witness: a concrete completed event carrying a request id. -/
theorem C6_witness :
    (onStatus "act_complete" (some ⟨some "completed", none, some "r1", none⟩)).clearedActiveSession
      = true ∧
    (onStatus "act_complete" (some ⟨some "completed", none, some "r1", none⟩)).completeRequestCall
      = some ("r1", true, none) := by
  obtain ⟨h1, _h2, _h3, h4⟩ :=
    C6_session_complete_effects "act_complete"
      (some ⟨some "completed", none, some "r1", none⟩) (Or.inl rfl)
  obtain ⟨b, hb, hiff⟩ := h4 _ "r1" rfl rfl (by decide)
  have hbt : b = true := hiff.mpr rfl
  exact ⟨h1, by rw [hb, hbt]⟩

/-- The guard invariant: the number of initial-prompt requests issued equals
one once the ref is set and zero before. -/
theorem pageStep_preserves_inv (st : InitialPromptState) (e : PageEvent)
    (h : st.postCount = if st.refSent then 1 else 0) :
    (pageStep st e).postCount = if (pageStep st e).refSent then 1 else 0 := by
  cases e with
  | trigger u =>
    cases u with
    | none => exact h
    | some p =>
      by_cases hp : p = "" <;> by_cases hr : st.refSent = true <;>
        simp_all [pageStep]
  | sendFailed => simpa [pageStep] using h

/-- The guard invariant holds along every event sequence. -/
theorem runPage_inv_aux (evs : List PageEvent) (st : InitialPromptState)
    (h : st.postCount = if st.refSent then 1 else 0) :
    (evs.foldl pageStep st).postCount = if (evs.foldl pageStep st).refSent then 1 else 0 := by
  induction evs generalizing st with
  | nil => exact h
  | cons e evs ih => exact ih _ (pageStep_preserves_inv st e h)

/-- The ref is never reset by any event. -/
theorem pageStep_ref_monotone (st : InitialPromptState) (e : PageEvent)
    (h : st.refSent = true) : (pageStep st e).refSent = true := by
  cases e with
  | trigger u =>
    cases u with
    | none => exact h
    | some p => by_cases hp : p = "" <;> simp_all [pageStep]
  | sendFailed => simpa [pageStep] using h

/-- C9: over any page lifetime (any sequence of trigger calls and failed
sends) the initial-prompt request is issued at most once; the issue count is
exactly one once the synchronous ref is set and zero before; and no event
ever resets the ref, so a failed send (which resets only the React state)
cannot enable a second send. -/
theorem C9_initial_prompt_once (evs : List PageEvent) :
    (runPage evs).postCount ≤ 1 ∧
    ((runPage evs).postCount = if (runPage evs).refSent then 1 else 0) ∧
    (∀ st e, st.refSent = true → (pageStep st e).refSent = true) := by
  have h := runPage_inv_aux evs {} rfl
  refine ⟨?_, h, pageStep_ref_monotone⟩
  rw [show runPage evs = evs.foldl pageStep {} from rfl, h]
  split <;> omega

/-- C9 witness: a lifetime with two triggers around a failed send still
issues at most one request, and a set ref survives a failed send. -/
theorem C9_witness :
    (runPage [PageEvent.trigger (some "build it"), PageEvent.sendFailed,
      PageEvent.trigger (some "build it")]).postCount ≤ 1 ∧
    (pageStep ⟨true, false, 1⟩ PageEvent.sendFailed).refSent = true :=
  ⟨(C9_initial_prompt_once _).1,
    (C9_initial_prompt_once []).2.2 ⟨true, false, 1⟩ PageEvent.sendFailed rfl⟩

/-- Membership form of the duplicate-id test of the `onMessage` handler. -/
theorem any_id_eq_true_iff (prev : List ChatMessage) (m : ChatMessage) :
    prev.any (fun msg => msg.id == m.id) = true ↔ m.id ∈ prev.map ChatMessage.id := by
  simp [List.any_eq_true, List.mem_map]

/-- A message whose id is already present leaves the transcript unchanged. -/
theorem onMessageAppend_of_mem (prev : List ChatMessage) (m : ChatMessage)
    (h : m.id ∈ prev.map ChatMessage.id) : onMessageAppend prev m = prev := by
  unfold onMessageAppend
  rw [if_pos ((any_id_eq_true_iff prev m).mpr h)]

/-- A message with a fresh id is appended at the end. -/
theorem onMessageAppend_of_not_mem (prev : List ChatMessage) (m : ChatMessage)
    (h : m.id ∉ prev.map ChatMessage.id) : onMessageAppend prev m = prev ++ [m] := by
  unfold onMessageAppend
  rw [if_neg]
  intro hc
  exact h ((any_id_eq_true_iff prev m).mp hc)

/-- When all delivered ids are distinct the fold appends everything in
order. -/
theorem foldl_onMessageAppend_eq (ms : List ChatMessage) :
    ∀ acc : List ChatMessage, ((acc ++ ms).map ChatMessage.id).Nodup →
      ms.foldl onMessageAppend acc = acc ++ ms := by
  induction ms with
  | nil => intro acc _; simp
  | cons m ms ih =>
    intro acc h
    have hnm : m.id ∉ acc.map ChatMessage.id := by
      intro hmem
      have hdisj := (List.nodup_append.mp (by simpa [List.map_append] using h)).2.2
      exact hdisj hmem (by simp)
    have hsplit : (acc ++ [m]) ++ ms = acc ++ m :: ms := by
      simp [List.append_assoc]
    rw [List.foldl_cons, onMessageAppend_of_not_mem acc m hnm,
      ih (acc ++ [m]) (by rw [hsplit]; exact h)]
    simp

/-- The fold always yields the accumulator followed by a subsequence of the
delivered messages. -/
theorem foldl_onMessageAppend_sublist (ms : List ChatMessage) :
    ∀ acc : List ChatMessage, ∃ ex, ms.foldl onMessageAppend acc = acc ++ ex ∧
      ex.Sublist ms := by
  induction ms with
  | nil => intro acc; exact ⟨[], by simp, List.nil_sublist []⟩
  | cons m ms ih =>
    intro acc
    by_cases hmem : m.id ∈ acc.map ChatMessage.id
    · obtain ⟨ex, he, hs⟩ := ih acc
      exact ⟨ex, by rw [List.foldl_cons, onMessageAppend_of_mem acc m hmem, he],
        hs.cons m⟩
    · obtain ⟨ex, he, hs⟩ := ih (acc ++ [m])
      refine ⟨m :: ex, ?_, hs.cons₂ m⟩
      rw [List.foldl_cons, onMessageAppend_of_not_mem acc m hmem, he]
      simp

/-- The fold preserves distinctness of transcript ids. -/
theorem foldl_onMessageAppend_nodup (ms : List ChatMessage) :
    ∀ acc : List ChatMessage, (acc.map ChatMessage.id).Nodup →
      ((ms.foldl onMessageAppend acc).map ChatMessage.id).Nodup := by
  induction ms with
  | nil => intro acc h; exact h
  | cons m ms ih =>
    intro acc h
    by_cases hmem : m.id ∈ acc.map ChatMessage.id
    · rw [List.foldl_cons, onMessageAppend_of_mem acc m hmem]
      exact ih acc h
    · rw [List.foldl_cons, onMessageAppend_of_not_mem acc m hmem]
      refine ih (acc ++ [m]) ?_
      rw [List.map_append]
      exact List.nodup_append.mpr ⟨h, by simp, by
        intro a ha hb
        simp at hb
        exact hmem (hb ▸ ha)⟩

/-- C1: the transcript of a viewer connected for the whole session equals
the delivered sequence whenever the delivered ids are distinct; in general
it is an order-preserving subsequence of the delivered sequence with
pairwise-distinct ids; and one delivery step appends a fresh message at the
end and leaves the transcript unchanged on a duplicate id. -/
theorem C1_transcript_faithful (delivered : List ChatMessage) :
    ((delivered.map ChatMessage.id).Nodup → transcript delivered = delivered) ∧
    (transcript delivered).Sublist delivered ∧
    ((transcript delivered).map ChatMessage.id).Nodup ∧
    (∀ prev m, m.id ∈ prev.map ChatMessage.id → onMessageAppend prev m = prev) ∧
    (∀ prev m, m.id ∉ prev.map ChatMessage.id → onMessageAppend prev m = prev ++ [m]) := by
  refine ⟨fun h => ?_, ?_, ?_, onMessageAppend_of_mem, onMessageAppend_of_not_mem⟩
  · simpa using foldl_onMessageAppend_eq delivered [] (by simpa using h)
  · obtain ⟨ex, he, hs⟩ := foldl_onMessageAppend_sublist delivered []
    simpa [transcript, he] using hs
  · exact foldl_onMessageAppend_nodup delivered [] (by simp)

/-- C1 witness: a concrete delivery with distinct ids is reproduced
verbatim, and a duplicate id leaves the transcript unchanged. -/
theorem C1_witness :
    transcript [⟨"a", "user", none, "hi", none⟩, ⟨"b", "assistant", none, "ok", none⟩]
      = [⟨"a", "user", none, "hi", none⟩, ⟨"b", "assistant", none, "ok", none⟩] ∧
    onMessageAppend [⟨"a", "user", none, "hi", none⟩] ⟨"a", "user", none, "again", none⟩
      = [⟨"a", "user", none, "hi", none⟩] := by
  refine ⟨(C1_transcript_faithful _).1 (by decide), ?_⟩
  exact (C1_transcript_faithful []).2.2.2.1 _ _ (by decide)

/-- A count is zero when nothing satisfies the test. -/
theorem countP_eq_zero_of_any_eq_false {α : Type} (l : List α) (p : α → Bool)
    (h : l.any p = false) : l.countP p = 0 := by
  rw [List.countP_eq_zero]
  intro a ha
  exact (List.any_eq_false.mp h) a ha

/-- Mapping a function that never makes the test newly true does not
increase a count. -/
theorem countP_map_le {α : Type} (l : List α) (f : α → α) (p : α → Bool)
    (h : ∀ x ∈ l, p (f x) = true → p x = true) :
    (l.map f).countP p ≤ l.countP p := by
  rw [List.countP_map]
  exact List.countP_mono_left h

/-- Adding an element that satisfies a so-far-unsatisfied test keeps the
count at one. -/
theorem countP_cons_le {α : Type} (x : α) (l : List α) (p : α → Bool)
    (h0 : l.countP p = 0) : (x :: l).countP p ≤ 1 := by
  rw [List.countP_cons, h0]
  split <;> simp

/-- Adding an element that fails the test leaves the count unchanged. -/
theorem countP_cons_of_neg {α : Type} (x : α) (l : List α) (p : α → Bool)
    (hx : p x = false) : (x :: l).countP p = l.countP p := by
  rw [List.countP_cons, hx]
  simp

/-- One orchestration step preserves the per-project exclusivity
invariant. -/
theorem orchStep_preserves_inv (st : OrchestratorState) (e : OrchEvent)
    (h : OrchInv st) : OrchInv (orchStep st e) := by
  cases e with
  | execute p sid =>
    by_cases hrun : sessionRunningFor st p = true
    · simpa [orchStep, hrun] using h
    · intro q
      have hq1 : st.sessions.countP
          (fun s => s.project == q && s.status == SessionStatus.running) ≤ 1 := (h q).1
      have hq2 : st.previews.countP
          (fun pr => pr.project == q && pr.status == PreviewStatus.running) ≤ 1 := (h q).2
      have hs0 : st.sessions.countP
          (fun s => s.project == p && s.status == SessionStatus.running) = 0 :=
        countP_eq_zero_of_any_eq_false _ _ (by
          simpa [sessionRunningFor] using hrun)
      have hns : (orchStep st (.execute p sid)).sessions
          = ⟨sid, p, SessionStatus.running⟩ :: st.sessions := by
        simp [orchStep, hrun]
      have hnp : (orchStep st (.execute p sid)).previews
          = st.previews.map (fun pr =>
              if pr.project == p then { pr with status := PreviewStatus.stopped } else pr) := by
        simp [orchStep, hrun]
      constructor
      · unfold runningSessionCount
        rw [hns]
        by_cases hpq : p = q
        · subst hpq
          exact countP_cons_le _ _ _ hs0
        · rw [countP_cons_of_neg _ _ _ (by simp [hpq])]
          exact hq1
      · unfold runningPreviewCount
        rw [hnp]
        refine le_trans (countP_map_le _ _ _ ?_) hq2
        intro pr _ hpr
        by_cases hpp : (pr.project == p) = true
        · rw [if_pos hpp] at hpr
          exfalso
          simp at hpr
        · rwa [if_neg hpp] at hpr
  | endSession sid final =>
    by_cases hterm : final = SessionStatus.running ∨ final = SessionStatus.pending
    · simpa [orchStep, hterm] using h
    · have hfr : final ≠ SessionStatus.running := fun hf => hterm (Or.inl hf)
      intro q
      have hq1 : st.sessions.countP
          (fun s => s.project == q && s.status == SessionStatus.running) ≤ 1 := (h q).1
      have hns : (orchStep st (.endSession sid final)).sessions
          = st.sessions.map (fun s =>
              if s.sid == sid then { s with status := final } else s) := by
        simp [orchStep, hterm]
      have hnp : (orchStep st (.endSession sid final)).previews = st.previews := by
        simp [orchStep, hterm]
      constructor
      · unfold runningSessionCount
        rw [hns]
        refine le_trans (countP_map_le _ _ _ ?_) hq1
        intro s _ hs
        by_cases hss : (s.sid == sid) = true
        · rw [if_pos hss] at hs
          exfalso
          simp at hs
          exact hfr hs.2
        · rwa [if_neg hss] at hs
      · unfold runningPreviewCount
        rw [hnp]
        exact (h q).2
  | startPreview p pid =>
    by_cases hrun : previewRunningFor st p = true
    · simpa [orchStep, hrun] using h
    · intro q
      have hq2 : st.previews.countP
          (fun pr => pr.project == q && pr.status == PreviewStatus.running) ≤ 1 := (h q).2
      have hp0 : st.previews.countP
          (fun pr => pr.project == p && pr.status == PreviewStatus.running) = 0 :=
        countP_eq_zero_of_any_eq_false _ _ (by
          simpa [previewRunningFor] using hrun)
      have hns : (orchStep st (.startPreview p pid)).sessions = st.sessions := by
        simp [orchStep, hrun]
      have hnp : (orchStep st (.startPreview p pid)).previews
          = ⟨pid, p, PreviewStatus.running⟩ :: st.previews := by
        simp [orchStep, hrun]
      constructor
      · unfold runningSessionCount
        rw [hns]
        exact (h q).1
      · unfold runningPreviewCount
        rw [hnp]
        by_cases hpq : p = q
        · subst hpq
          exact countP_cons_le _ _ _ hp0
        · rw [countP_cons_of_neg _ _ _ (by simp [hpq])]
          exact hq2
  | stopPreview pid =>
    intro q
    have hq2 : st.previews.countP
        (fun pr => pr.project == q && pr.status == PreviewStatus.running) ≤ 1 := (h q).2
    constructor
    · unfold runningSessionCount
      have hns : (orchStep st (.stopPreview pid)).sessions = st.sessions := by
        simp [orchStep]
      rw [hns]
      exact (h q).1
    · unfold runningPreviewCount
      have hnp : (orchStep st (.stopPreview pid)).previews
          = st.previews.map (fun pr =>
              if pr.pid == pid then { pr with status := PreviewStatus.stopped } else pr) := by
        simp [orchStep]
      rw [hnp]
      refine le_trans (countP_map_le _ _ _ ?_) hq2
      intro pr _ hpr
      by_cases hpp : (pr.pid == pid) = true
      · rw [if_pos hpp] at hpr
        exfalso
        simp at hpr
      · rwa [if_neg hpp] at hpr

/-- The invariant holds after every event sequence. -/
theorem orchRun_inv_aux (evs : List OrchEvent) :
    ∀ st, OrchInv st → OrchInv (evs.foldl orchStep st) := by
  induction evs with
  | nil => intro st h; exact h
  | cons e evs ih => intro st h; exact ih _ (orchStep_preserves_inv st e h)

/-- C2: in every state reachable by orchestration events from the empty
state, each project has at most one running Session and at most one running
PreviewProcess. -/
theorem C2_at_most_one_running (evs : List OrchEvent) (p : Nat) :
    runningSessionCount (orchRun evs) p ≤ 1 ∧ runningPreviewCount (orchRun evs) p ≤ 1 := by
  refine orchRun_inv_aux evs ⟨[], []⟩ ?_ p
  intro q
  constructor <;> simp [runningSessionCount, runningPreviewCount]

/-- A list starts with itself followed by anything. -/
theorem startsWithL_append (p r : List Char) : startsWithL p (p ++ r) = true := by
  induction p with
  | nil => rfl
  | cons a t ih => simp [startsWithL, ih]

/-- Appending a pattern makes the result end with it. -/
theorem endsWithL_append (a pat : List Char) : endsWithL (a ++ pat) pat = true := by
  unfold endsWithL
  rw [List.reverse_append]
  exact startsWithL_append _ _

/-- A reversed text beginning with a dot and a t cannot match the reversed
think-hard pattern. -/
theorem fullThinkRev_dot_t (r : List Char) : fullThinkRev ('.' :: 't' :: r) = false := by
  unfold fullThinkRev
  simp [List.dropWhile_cons, isWs, startsWithL]

/-- No text ending in "t." matches the think-hard pattern in full. -/
theorem fullThink_append_t_dot (l : List Char) : fullThink (l ++ [ 't', '.']) = false := by
  unfold fullThink
  rw [List.reverse_append]
  exact fullThinkRev_dot_t l.reverse

/-- The think-hard regex never fires on a text ending in "t.". -/
theorem firstThinkIdx_append_t_dot (m : List Char) :
    firstThinkIdx (m ++ [ 't', '.']) = none := by
  induction m with
  | nil => decide
  | cons a t ih =>
    have h1 : fullThink (a :: (t ++ [ 't', '.'])) = false := by
      rw [← List.cons_append]
      exact fullThink_append_t_dot (a :: t)
    simp [firstThinkIdx, h1, ih]

/-- The think-hard regex never fires on a text ending with the chat-mode
suffix. -/
theorem firstThinkIdx_chatSuffix (pre : List Char) :
    firstThinkIdx (pre ++ chatSuffix.data) = none := by
  have h : chatSuffix.data = chatSuffix.data.dropLast.dropLast ++ [ 't', '.'] := by decide
  rw [h, ← List.append_assoc]
  exact firstThinkIdx_append_t_dot _

/-- The think-hard removal is the identity on messages ending with the
chat-mode suffix. -/
theorem replaceThinkHard_of_chatSuffix (orig : String) :
    replaceThinkHard (orig ++ chatSuffix) = orig ++ chatSuffix := by
  unfold replaceThinkHard
  rw [String.data_append, firstThinkIdx_chatSuffix]

/-- The chat-suffix removal strips exactly the appended suffix. -/
theorem removeChatSuffix_append (orig : String) :
    removeChatSuffix (orig ++ chatSuffix) = orig := by
  unfold removeChatSuffix
  rw [String.data_append, if_pos (endsWithL_append _ _)]
  have hlen : (orig.data ++ chatSuffix.data).length - chatSuffix.data.length
      = orig.data.length := by
    simp
  rw [hlen, List.take_left]

/-- C8: in chat mode `runAct` sends the instruction with exactly the chat
suffix appended, and `cleanUserMessage` applied to the sent text yields the
trimmed original instruction. -/
theorem C8_chat_suffix_roundtrip (orig q : String) (images : List UploadedFile)
    (h1 : jsTrim orig ≠ "")
    (_h2 : endsWithL orig.data chatSuffix.data = false) :
    runActSubmit (some orig) q images ChatMode.chat = some (orig ++ chatSuffix, images) ∧
    cleanUserMessage (orig ++ chatSuffix) = jsTrim orig := by
  have horig : orig ≠ "" := by
    intro he
    rw [he] at h1
    exact h1 rfl
  constructor
  · simp [runActSubmit, horig, h1]
  · unfold cleanUserMessage
    rw [replaceThinkHard_of_chatSuffix, removeChatSuffix_append]

/-- C8 witness: a concrete instruction round-trips through the chat-mode
suffix. -/
theorem C8_witness :
    runActSubmit (some "hello") "" [] ChatMode.chat = some ("hello" ++ chatSuffix, []) ∧
    cleanUserMessage ("hello" ++ chatSuffix) = jsTrim "hello" :=
  C8_chat_suffix_roundtrip "hello" "" [] (by decide) (by decide)

end ChatQuant
